import Mathlib

/-!
Verification of the expense-tracking repository's taxonomy engine.

This file shallowly embeds the most mature iteration of the repository
(`src/expenses_tracking/expense_tracker.rs` together with the
`Transaction`/`Category`/`SubCategory` model of `src/transaction.rs` and the
parsing helpers of `src/expenses_tracking/transaction.rs`).

Modelling conventions:
* `BTreeSet` / `BTreeMap` values are modelled as Lean `List`s together with an
  insert-if-absent operation; none of the verified properties depend on the
  iteration order of the sets, only on their membership semantics.
* Rust `f32` amounts are modelled by `F32`: NaN, signed infinities, or a
  finite value carried as the exact rational it denotes.  The float parser
  `f32::from_str` is modelled with its full grammar (optional sign, the
  case-insensitive special forms inf/infinity/nan, decimal literals with an
  optional exponent), finite results being rounded to the nearest binary32
  value with ties to even by `fround`; subtraction rounds the exact
  difference the same way.  The sign of zero is not modelled (it affects
  neither column selection nor validation).
* `chrono::NaiveDate` is modelled as a day/month/year record with proleptic
  Gregorian calendar validation, and the `%d.%m.%Y` parse/format pair is
  modelled directly (1–2 digit day and month on parse, zero padding on format).
* `String::to_lowercase` is modelled by `strLower`, lowercasing the ASCII
  letters (the Unicode case mappings of the full Rust function are outside the
  model; every name the repository and its tests use is ASCII).
* Fallible Rust functions returning `Result<_, Box<dyn Error>>` are modelled
  with `Except String _`, carrying the same error message strings the source
  constructs.
-/

/-- Character code of the apostrophe, the thousands separator stripped by
`parse_amount`. -/
def apos : Char := Char.ofNat 39

/-- Tests for an ASCII decimal digit. -/
def isDigitB (c : Char) : Bool := 48 ≤ c.toNat && c.toNat ≤ 57

/-- Numeric value of a digit string (most significant digit first), as
accumulated by a decimal string-to-number conversion. -/
def natVal (cs : List Char) : Nat := cs.foldl (fun a c => 10 * a + (c.toNat - 48)) 0

/-- Splits a character list into its longest prefix of ASCII digits and the
remainder. -/
def takeDigits : List Char → List Char × List Char
  | [] => ([], [])
  | c :: cs =>
    if isDigitB c then
      let p := takeDigits cs
      (c :: p.1, p.2)
    else ([], c :: cs)

/-- Parses an unsigned decimal literal (digits with at most one decimal point,
at least one digit overall) into an exact rational, mirroring the finite
fragment of Rust's `f32::from_str` grammar. -/
def parseDecimal (cs : List Char) : Option ℚ :=
  let p := takeDigits cs
  match p.2 with
  | [] => if p.1 = [] then none else some (natVal p.1)
  | c :: frac =>
    if c = Char.ofNat 46 ∧ frac.all isDigitB ∧ (p.1 ≠ [] ∨ frac ≠ []) then
      some ((natVal p.1 : ℚ) + (natVal frac : ℚ) / (10 : ℚ) ^ frac.length)
    else none

/-- Model of the `string_to_option` helper of `transaction.rs`: an empty string
becomes the absent value, any other string stays present. -/
def string_to_option (s : String) : Option String :=
  if s = "" then none else some s

/-- Calendar date modelling `chrono::NaiveDate` (proleptic Gregorian). -/
structure Date where
  year : Nat
  month : Nat
  day : Nat
deriving DecidableEq

/-- Value of `chrono::NaiveDate::default()`, the Unix epoch date. -/
def epochDate : Date := ⟨1970, 1, 1⟩

/-- Gregorian leap-year rule used for date validation. -/
def isLeap (y : Nat) : Prop := (y % 4 = 0 ∧ y % 100 ≠ 0) ∨ y % 400 = 0

instance (y : Nat) : Decidable (isLeap y) := by unfold isLeap; infer_instance

/-- Number of days of a month in the proleptic Gregorian calendar. -/
def daysInMonth (y m : Nat) : Nat :=
  if m = 2 then (if isLeap y then 29 else 28)
  else if m = 4 ∨ m = 6 ∨ m = 9 ∨ m = 11 then 30
  else 31

/-- Splits a character list at every dot character. -/
def splitDots : List Char → List (List Char)
  | [] => [[]]
  | c :: cs =>
    if c = Char.ofNat 46 then [] :: splitDots cs
    else
      match splitDots cs with
      | [] => [[c]]
      | g :: gs => (c :: g) :: gs

/-- Model of `chrono::NaiveDate::parse_from_str(_, "%d.%m.%Y")`: the input must
consist of three dot-separated digit runs (day and month of one or two digits),
naming a valid calendar date. -/
def parseDate (s : String) : Except String Date :=
  match splitDots s.data with
  | [ds, ms, ys] =>
    if ds ≠ [] ∧ ds.length ≤ 2 ∧ ds.all isDigitB ∧
       ms ≠ [] ∧ ms.length ≤ 2 ∧ ms.all isDigitB ∧
       ys ≠ [] ∧ ys.all isDigitB then
      let d := natVal ds
      let m := natVal ms
      let y := natVal ys
      if 1 ≤ m ∧ m ≤ 12 ∧ 1 ≤ d ∧ d ≤ daysInMonth y m then .ok ⟨y, m, d⟩
      else .error ("input is out of range")
    else .error ("input contains invalid characters")
  | _ => .error ("premature end of input")

/-- Zero-pads a number to two digits, as the `%d` and `%m` format specifiers
do. -/
def pad2 (n : Nat) : String :=
  if n < 10 then "0" ++ Nat.repr n else Nat.repr n

/-- Zero-pads a year to four digits, as the `%Y` format specifier does. -/
def pad4 (n : Nat) : String :=
  if n < 10 then "000" ++ Nat.repr n
  else if n < 100 then "00" ++ Nat.repr n
  else if n < 1000 then "0" ++ Nat.repr n
  else Nat.repr n

/-- Model of `date.format("%d.%m.%Y").to_string()`. -/
def formatDate (d : Date) : String :=
  pad2 d.day ++ "." ++ pad2 d.month ++ "." ++ pad4 d.year

/-- Rounds a rational to the nearest integer, ties to even, the rounding rule
of Rust's fixed-precision float formatting. -/
def roundHalfEven (q : ℚ) : ℤ :=
  let f := ⌊q⌋
  let r := q - f
  if r < 1 / 2 then f
  else if 1 / 2 < r then f + 1
  else if f % 2 = 0 then f else f + 1

/-- Model of `format!("{:.2}", x)`: the amount rendered with exactly two
digits after the decimal point. -/
def format2 (q : ℚ) : String :=
  let sign := if q < 0 then "-" else ""
  let n := (roundHalfEven ((if q < 0 then -q else q) * 100)).toNat
  sign ++ Nat.repr (n / 100) ++ "." ++ pad2 (n % 100)

/-- Lowercases one ASCII letter, leaving every other character unchanged. -/
def lowerChar (c : Char) : Char :=
  if 65 ≤ c.toNat ∧ c.toNat ≤ 90 then Char.ofNat (c.toNat + 32) else c

/-- Model of `str::to_lowercase` on the ASCII fragment. -/
def strLower (s : String) : String := ⟨s.data.map lowerChar⟩

/-- Fuel-driven floor of the base-two logarithm (kernel-reducible). -/
def natLog2F : Nat → Nat → Nat
  | 0, _ => 0
  | fuel + 1, n => if 2 ≤ n then natLog2F fuel (n / 2) + 1 else 0

/-- Floor of the base-two logarithm of a natural number. -/
def natLog2 (n : Nat) : Nat := natLog2F n n

/-- Binary exponent of a positive rational: the integer e with
2 ^ e ≤ q < 2 ^ (e + 1). -/
def qexp (q : ℚ) : ℤ :=
  let e0 : ℤ := (natLog2 q.num.natAbs : ℤ) - (natLog2 q.den : ℤ)
  if (2 : ℚ) ^ (e0 + 1) ≤ q then e0 + 1
  else if q < (2 : ℚ) ^ e0 then e0 - 1
  else e0

/-- Binary32 value as stored in an `f32` amount: NaN, a signed infinity, or a
finite value carried as the exact rational it denotes. -/
inductive F32 where
  | nan : F32
  | inf (neg : Bool) : F32
  | finite (val : ℚ) : F32
deriving DecidableEq

/-- Rounds an exact rational to the nearest binary32 value, ties to even,
with subnormal underflow and overflow to infinity — the IEEE-754 rounding
performed by Rust's float parsing and arithmetic. -/
def fround (q : ℚ) : F32 :=
  if q = 0 then .finite 0
  else
    let a := if q < 0 then -q else q
    let k : ℤ := max (qexp a - 23) (-149)
    let m := roundHalfEven (a / (2 : ℚ) ^ k)
    let v := (m : ℚ) * (2 : ℚ) ^ k
    if (2 : ℚ) ^ (128 : ℤ) ≤ v then .inf (decide (q < 0))
    else .finite (if q < 0 then -v else v)

/-- Splits a float literal at its exponent marker (e or E), when present. -/
def splitExp : List Char → List Char × Option (List Char)
  | [] => ([], none)
  | c :: cs =>
    if c = Char.ofNat 101 ∨ c = Char.ofNat 69 then ([], some cs)
    else
      let p := splitExp cs
      (c :: p.1, p.2)

/-- Value of a non-empty all-digit run. -/
def parseNatDigits (cs : List Char) : Option ℕ :=
  if cs ≠ [] ∧ cs.all isDigitB then some (natVal cs) else none

/-- Parses the optionally signed digit run of an exponent part. -/
def parseExpPart (cs : List Char) : Option ℤ :=
  match cs with
  | [] => none
  | c :: rest =>
    if c = Char.ofNat 45 then (parseNatDigits rest).map (fun n => -(n : ℤ))
    else if c = Char.ofNat 43 then (parseNatDigits rest).map (fun n => (n : ℤ))
    else (parseNatDigits (c :: rest)).map (fun n => (n : ℤ))

/-- Parses a decimal literal with an optional exponent into its exact rational
value. -/
def parseDecE (cs : List Char) : Option ℚ :=
  match splitExp cs with
  | (mant, none) => parseDecimal mant
  | (mant, some ex) =>
    match parseDecimal mant, parseExpPart ex with
    | some m, some e => some (m * (10 : ℚ) ^ e)
    | _, _ => none

/-- Parses the unsigned part of a float literal: the case-insensitive special
forms inf, infinity and nan, or a decimal literal rounded to binary32. -/
def parseF32Core (cs : List Char) (neg : Bool) : Option F32 :=
  let ls := cs.map lowerChar
  if ls = ("inf").data ∨ ls = ("infinity").data then some (.inf neg)
  else if ls = ("nan").data then some .nan
  else (parseDecE cs).map (fun q => fround (if neg then -q else q))

/-- Model of `f32::from_str`: optional sign, then a special form or a decimal
literal, the value rounded to the nearest binary32. -/
def parseF32 (cs : List Char) : Option F32 :=
  match cs with
  | [] => none
  | c :: rest =>
    if c = Char.ofNat 45 then parseF32Core rest true
    else if c = Char.ofNat 43 then parseF32Core rest false
    else parseF32Core (c :: rest) false

/-- Model of `parse_amount` from `transaction.rs`: the empty string is the
amount `0`; otherwise the apostrophe thousands separators are removed and the
remainder is parsed as an `f32`, any parse failure being surfaced as an
error. -/
def parse_amount (s : String) : Except String F32 :=
  if s = "" then .ok (.finite 0)
  else
    match parseF32 (s.data.filter (fun c => c ≠ apos)) with
    | some q => .ok q
    | none => .error ("invalid float literal")

/-- Model of `f32` subtraction: NaN propagates, infinities follow the IEEE
rules, and a finite difference is rounded to binary32. -/
def F32.sub : F32 → F32 → F32
  | .nan, _ => .nan
  | _, .nan => .nan
  | .inf a, .inf b => if a = b then .nan else .inf a
  | .inf a, .finite _ => .inf a
  | .finite _, .inf b => .inf (!b)
  | .finite a, .finite b => fround (a - b)

/-- Model of the `f32` comparison `x < y` (false whenever an operand is
NaN). -/
def F32.lt : F32 → F32 → Bool
  | .nan, _ => false
  | _, .nan => false
  | .inf a, .inf b => a && !b
  | .inf a, .finite _ => a
  | .finite _, .inf b => !b
  | .finite a, .finite b => decide (a < b)

/-- Model of the `f32` comparison `x ≤ y` (false whenever an operand is
NaN). -/
def F32.le : F32 → F32 → Bool
  | .nan, _ => false
  | _, .nan => false
  | .inf a, .inf b => a || !b
  | .inf a, .finite _ => a
  | .finite _, .inf b => !b
  | .finite a, .finite b => decide (a ≤ b)

/-- Model of `f32` negation. -/
def F32.neg : F32 → F32
  | .nan => .nan
  | .inf a => .inf (!a)
  | .finite v => .finite (-v)

/-- Model of `format!("{:.2}", x)` on a float value: NaN and the infinities
print their special forms, a finite value prints its exact two-decimal
rendering. -/
def formatF32 : F32 → String
  | .nan => "NaN"
  | .inf a => if a then "-inf" else "inf"
  | .finite v => format2 v

/-- Taxonomy sub-category entity of `transaction.rs`: name-based identity with
a creation date. -/
structure SubCategory where
  name : String
  date_added : Date
deriving DecidableEq

/-- Model of `SubCategory::from_name` (the `as_subcategory` helper): lowercase
name with the default creation date. -/
def SubCategory.from_name (s : String) : SubCategory :=
  ⟨strLower s, epochDate⟩

/-- Taxonomy category entity of `transaction.rs`, owning its sub-category
set. -/
structure Category where
  name : String
  subcategories : List SubCategory
  date_added : Date
deriving DecidableEq

/-- Resolved transaction as held by the tracker's collection (the
`category_name`-carrying `Transaction` shape used by
`expense_tracker.rs`). -/
structure Transaction where
  date : Date
  amount : F32
  category_name : String
  subcategory_name : Option String
  tag : Option String
  note : Option String
deriving DecidableEq

/-- Raw CSV row of seven string columns, the `TransactionCsv` shape the csv
reader deserializes into. -/
structure TransactionCsv where
  date : String
  amount_out : String
  amount_in : String
  category : String
  subcategory : String
  tag : String
  note : String
deriving DecidableEq

/-- Model of `TryFrom<TransactionCsv> for TransactionParsed`/`Transaction`:
parses the date and the two amount columns, combines the amounts into a single
signed value, and normalizes the empty optional columns to absent values. -/
def tryFromCsv (csv : TransactionCsv) : Except String Transaction :=
  match parseDate csv.date with
  | .error e => .error ("Failed to parse date from CSV transaction: " ++ e)
  | .ok d =>
    match parse_amount csv.amount_in with
    | .error e => .error ("Failed to parse amount_in from CSV transaction: " ++ e)
    | .ok vin =>
      match parse_amount csv.amount_out with
      | .error e => .error ("Failed to parse amount_out from CSV transaction: " ++ e)
      | .ok vout =>
        .ok ⟨d, F32.sub vin vout, csv.category, string_to_option csv.subcategory,
             string_to_option csv.tag, string_to_option csv.note⟩

/-- Model of the csv crate's header-driven deserialization of one record into
`TransactionCsv` (canonical column order); a record whose field count differs
from the seven-column header is a structural error. -/
def deserializeRecord (r : List String) : Except String TransactionCsv :=
  match r with
  | [d, ao, ai, c, s, tg, nt] => .ok ⟨d, ao, ai, c, s, tg, nt⟩
  | _ => .error ("found record with wrong number of fields")

/-- Insert-if-absent on the list model of a `BTreeSet`, returning, as
`BTreeSet::insert` does, whether the element was newly inserted. -/
def listInsert {α : Type} [DecidableEq α] (x : α) (l : List α) : Bool × List α :=
  if x ∈ l then (false, l) else (true, l ++ [x])

/-- State of `ExpenseTracker`: the taxonomy store plus the retained
transaction collection. -/
structure ExpenseTracker where
  valid_categories : List Category
  transactions : List Transaction
deriving DecidableEq

/-- Model of `ExpenseTracker::new`. -/
def ExpenseTracker.new : ExpenseTracker := ⟨[], []⟩

/-- Model of `ExpenseTracker::get_category`: case-insensitive lookup of a
category by lowercase-normalized name. -/
def ExpenseTracker.get_category (st : ExpenseTracker) (category_name : String) :
    Option Category :=
  st.valid_categories.find? (fun c => c.name == strLower category_name)

/-- Model of `ExpenseTracker::get_subcategory`: case-insensitive lookup of a
sub-category under the named category. -/
def ExpenseTracker.get_subcategory (st : ExpenseTracker)
    (subcategory_name category_name : String) : Option SubCategory :=
  match st.get_category category_name with
  | some category => category.subcategories.find? (fun s => s.name == strLower subcategory_name)
  | none => none

/-- Model of `ExpenseTracker::add_category`.  The current date substituted for
an absent creation date is passed explicitly as `today`.  The call never
fails; the boolean reports whether a category was inserted. -/
def ExpenseTracker.add_category (st : ExpenseTracker) (category_name : String)
    (date_creation : Option Date) (today : Date) : Bool × ExpenseTracker :=
  match st.get_category category_name with
  | some _ => (false, st)
  | none =>
    let category_date := date_creation.getD today
    let new_category : Category := ⟨strLower category_name, [], category_date⟩
    let p := listInsert new_category st.valid_categories
    (p.1, { st with valid_categories := p.2 })

/-- Model of `ExpenseTracker::add_subcategory`: fails when the category is
unknown or when the sub-category already exists under it; otherwise extracts
the category, inserts the lowercase-normalized sub-category, and reinserts
the category. -/
def ExpenseTracker.add_subcategory (st : ExpenseTracker)
    (category_name subcategory_name : String) (date_creation : Option Date)
    (today : Date) : Except String ExpenseTracker :=
  match st.get_category category_name with
  | none => .error ("Sub-category cannot be added because its category is invalid")
  | some cloned_category =>
    match st.get_subcategory subcategory_name category_name with
    | some _ => .error ("The subcategory name already exists")
    | none =>
      let rest := st.valid_categories.erase cloned_category
      let subcategory_date := date_creation.getD today
      let new_subcategory : SubCategory := ⟨strLower subcategory_name, subcategory_date⟩
      let extracted : Category :=
        { cloned_category with
          subcategories := (listInsert new_subcategory cloned_category.subcategories).2 }
      .ok { st with valid_categories := (listInsert extracted rest).2 }

/-- Model of `ExpenseTracker::is_transaction_valid` (whose branch structure is
shared verbatim with `TransactionParsed::resolve_references`): the reference
resolver deciding a parsed transaction's validity against the store. -/
def ExpenseTracker.is_transaction_valid (st : ExpenseTracker) (t : Transaction) :
    Except String Unit :=
  match st.get_category t.category_name with
  | none => .error ("Invalid category in transaction")
  | some category =>
    match t.subcategory_name with
    | none =>
      if category.subcategories.isEmpty then .ok ()
      else .error ("No sub-category set in transaction although the category has some")
    | some subcategory_name =>
      if SubCategory.from_name subcategory_name ∈ category.subcategories then .ok ()
      else if category.subcategories.any (fun s => s.name == strLower subcategory_name) then .ok ()
      else .error ("Sub-category set in transaction does not exist in category")

/-- Model of `ExpenseTracker::add_transaction`: appends the transaction to the
collection when the resolver accepts it. -/
def ExpenseTracker.add_transaction (st : ExpenseTracker) (t : Transaction) :
    Except String ExpenseTracker :=
  match st.is_transaction_valid t with
  | .error e => .error e
  | .ok _ => .ok { st with transactions := st.transactions ++ [t] }

/-- Taxonomy auto-creation step of `load_transactions_from_file`: registers
the row's own category and, when present, its sub-category (an
`add_subcategory` error is logged and ignored there). -/
def ExpenseTracker.generateFor (st : ExpenseTracker) (t : Transaction) : ExpenseTracker :=
  let st1 := (st.add_category t.category_name (some t.date) t.date).2
  match t.subcategory_name with
  | none => st1
  | some s =>
    match st1.add_subcategory t.category_name s (some t.date) t.date with
    | .ok st2 => st2
    | .error _ => st1

/-- Model of the record loop of `ExpenseTracker::load_transactions_from_file`
over the already tokenized records of the file, threading the ignored-row
counter: a record that fails deserialization or structural parsing aborts the
whole load, a record the resolver rejects only increments the counter. -/
def ExpenseTracker.load_transactions_from_rows (st : ExpenseTracker)
    (generate_categories_and_sub : Bool) (n_ignored : Nat) :
    List (List String) → Except String (ExpenseTracker × Nat)
  | [] => .ok (st, n_ignored)
  | r :: rest =>
    match deserializeRecord r with
    | .error e => .error ("Failed to deserialize the CSV transaction: " ++ e)
    | .ok csv =>
      match tryFromCsv csv with
      | .error e => .error ("Failed to convert CSV transaction to transaction: " ++ e)
      | .ok t =>
        let st1 := if generate_categories_and_sub then st.generateFor t else st
        match st1.add_transaction t with
        | .ok st2 => st2.load_transactions_from_rows generate_categories_and_sub n_ignored rest
        | .error _ => st1.load_transactions_from_rows generate_categories_and_sub (n_ignored + 1) rest

/-- Composite structural parsing stage for one record: deserialization into
`TransactionCsv` followed by the conversion to `Transaction`. -/
def parseRow (r : List String) : Except String Transaction :=
  (deserializeRecord r).bind tryFromCsv

/-- Header record written by `write_transactions_to_file`. -/
def writeHeader : List String :=
  ["date", "amount_out", "amount_in", "category", "subcategory", "tag", "note"]

/-- Record written for one retained transaction by
`write_transactions_to_file`: the signed amount is re-split into the
out/in columns formatted to two decimals, and absent optional fields are
written as empty strings. -/
def writeRecord (t : Transaction) : List String :=
  [formatDate t.date,
   if t.amount.lt (F32.finite 0) then formatF32 t.amount.neg else "",
   if F32.le (F32.finite 0) t.amount then formatF32 t.amount else "",
   t.category_name,
   t.subcategory_name.getD "",
   t.tag.getD "",
   t.note.getD ""]

/-- Transaction records produced by `ExpenseTracker::write_transactions_to_file`
(following the header record `writeHeader`). -/
def ExpenseTracker.write_transactions (st : ExpenseTracker) : List (List String) :=
  st.transactions.map writeRecord

/-- Loop body of `ExpenseTracker::load_info_from_transactions`; the `.unwrap()`
on the inner `add_subcategory` call is modelled by propagating its error,
so an `.error` result denotes a panic of the source. -/
def loadInfoGo (st : ExpenseTracker) : List Transaction → Except String ExpenseTracker
  | [] => .ok st
  | t :: rest =>
    let st1 := (st.add_category t.category_name (some t.date) t.date).2
    match t.subcategory_name with
    | none => loadInfoGo st1 rest
    | some s =>
      match st1.add_subcategory t.category_name s (some t.date) t.date with
      | .ok st2 => loadInfoGo st2 rest
      | .error e => .error e

/-- Model of `ExpenseTracker::load_info_from_transactions`: rebuilds the
taxonomy from the cloned transaction collection. -/
def ExpenseTracker.load_info_from_transactions (st : ExpenseTracker) :
    Except String ExpenseTracker :=
  loadInfoGo st st.transactions

/-- Uniqueness invariant of the taxonomy store: no two categories share a
normalized name. -/
def catNamesNodup (st : ExpenseTracker) : Prop :=
  (st.valid_categories.map (fun c => c.name)).Nodup

/-- Writing back an optional column inverts the empty-string normalization. -/
theorem string_to_option_getD (s : String) : (string_to_option s).getD "" = s := by
  unfold string_to_option
  split <;> simp_all

/-- Formatted two-decimal amounts are never the empty string. -/
theorem format2_ne_empty (q : ℚ) : format2 q ≠ "" := by
  unfold format2
  intro h
  have hl := congrArg String.length h
  simp only [String.length_append] at hl
  rw [show String.length "." = 1 from rfl, show String.length "" = 0 from rfl] at hl
  omega

/-- Example store: one category `food` carrying the sub-category
`groceries`. -/
def catFood : Category := ⟨"food", [⟨"groceries", epochDate⟩], epochDate⟩

/-- Example store: one category `food` carrying no sub-categories. -/
def catFoodNoSubs : Category := ⟨"food", [], epochDate⟩

/-- Tracker whose store is `[catFood]`. -/
def trFood : ExpenseTracker := ⟨[catFood], []⟩

/-- Tracker whose store is `[catFoodNoSubs]`. -/
def trFoodNoSubs : ExpenseTracker := ⟨[catFoodNoSubs], []⟩

/-- Transaction naming category `Food` and sub-category `Groceries` (mixed
case on purpose). -/
def txFoodGroceries : Transaction := ⟨epochDate, F32.finite 0, "Food", some "Groceries", none, none⟩

/-- Transaction naming category `Food` and sub-category `Restaurant`. -/
def txFoodRestaurant : Transaction := ⟨epochDate, F32.finite 0, "Food", some "Restaurant", none, none⟩

/-- C1: the resolver implements exactly the three-way rule — unknown category
rejects; a category in the store with zero sub-categories accepts exactly the
transactions whose sub-category is absent; a category with at least one
sub-category accepts exactly the transactions whose sub-category is present
and matches one of its sub-categories case-insensitively. -/
theorem c1_resolver_three_way (st : ExpenseTracker) (t : Transaction) :
    (st.get_category t.category_name = none →
      ∃ e, st.is_transaction_valid t = .error e)
  ∧ (∀ c, st.get_category t.category_name = some c → c.subcategories = [] →
      (st.is_transaction_valid t = .ok () ↔ t.subcategory_name = none))
  ∧ (∀ c, st.get_category t.category_name = some c → c.subcategories ≠ [] →
      (st.is_transaction_valid t = .ok () ↔
        ∃ s, t.subcategory_name = some s ∧
          ∃ sub ∈ c.subcategories, sub.name = strLower s)) := by
  refine ⟨?_, ?_, ?_⟩
  · intro h
    simp only [ExpenseTracker.is_transaction_valid, h]
    exact ⟨_, rfl⟩
  · intro c hc hempty
    cases hs : t.subcategory_name with
    | none => simp [ExpenseTracker.is_transaction_valid, hc, hs, hempty]
    | some s => simp [ExpenseTracker.is_transaction_valid, hc, hs, hempty]
  · intro c hc hne
    cases hs : t.subcategory_name with
    | none =>
      simp [ExpenseTracker.is_transaction_valid, hc, hs, List.isEmpty_iff, hne]
    | some s =>
      simp only [ExpenseTracker.is_transaction_valid, hc, hs]
      by_cases hmem : SubCategory.from_name s ∈ c.subcategories
      · simp only [if_pos hmem]
        constructor
        · intro _
          exact ⟨s, rfl, SubCategory.from_name s, hmem, rfl⟩
        · intro _
          trivial
      · rw [if_neg hmem]
        by_cases hany : c.subcategories.any (fun sub => sub.name == strLower s)
        · rw [if_pos hany]
          constructor
          · intro _
            obtain ⟨sub, hsub, hname⟩ := List.any_eq_true.mp hany
            exact ⟨s, rfl, sub, hsub, by simpa using hname⟩
          · intro _
            trivial
        · rw [if_neg hany]
          constructor
          · intro h
            exact absurd h (by simp)
          · rintro ⟨s', hs', sub, hsub, hname⟩
            obtain rfl : s = s' := by simpa using hs'
            exact absurd (List.any_eq_true.mpr ⟨sub, hsub, by simpa using hname⟩) hany

/-- C1 witness: with the store holding `food -> {groceries}`, a transaction
naming `Food`/`Groceries` resolves successfully. -/
theorem c1_witness :
    trFood.get_category txFoodGroceries.category_name = some catFood ∧
    trFood.is_transaction_valid txFoodGroceries = .ok () := by
  refine ⟨rfl, ?_⟩
  have h := (c1_resolver_three_way trFood txFoodGroceries).2.2 catFood rfl (by decide)
  exact h.mpr ⟨"Groceries", rfl, ⟨"groceries", epochDate⟩, by decide, by decide⟩

/-- Transaction naming category `food` and sub-category `x`. -/
def txFoodX : Transaction := ⟨epochDate, F32.finite 0, "food", some "x", none, none⟩

/-- C2 (amended): a transaction whose category exists but declares zero
sub-categories and whose own sub-category is present is rejected, but with
the same error used for an invalid sub-category — the resolver has no
distinct zero-sub-category rejection. -/
theorem c2_zero_subcats_same_error (st : ExpenseTracker) (t : Transaction)
    (c : Category) (s : String)
    (hc : st.get_category t.category_name = some c)
    (hempty : c.subcategories = [])
    (hs : t.subcategory_name = some s) :
    st.is_transaction_valid t =
      .error ("Sub-category set in transaction does not exist in category") := by
  simp [ExpenseTracker.is_transaction_valid, hc, hs, hempty]

/-- C2 counterexample: the rejection of a present sub-category under the
zero-sub-category `food` is literally the same error value as the rejection
of an unknown sub-category under `food -> {groceries}` — there is no
distinct `UnexpectedSubcategory` classification. -/
theorem c2_counterexample :
    catFoodNoSubs.subcategories = []
  ∧ trFoodNoSubs.get_category txFoodRestaurant.category_name = some catFoodNoSubs
  ∧ catFood.subcategories ≠ []
  ∧ trFood.get_category txFoodRestaurant.category_name = some catFood
  ∧ (∃ e, trFoodNoSubs.is_transaction_valid txFoodRestaurant = .error e)
  ∧ trFoodNoSubs.is_transaction_valid txFoodRestaurant =
      trFood.is_transaction_valid txFoodRestaurant := by
  exact ⟨rfl, rfl, by decide, rfl, ⟨_, rfl⟩, rfl⟩

/-- C2 witness: the amended statement at the concrete store `[food]` (no
sub-categories) and the transaction `food`/`x`. -/
theorem c2_witness :
    trFoodNoSubs.is_transaction_valid txFoodX =
      .error ("Sub-category set in transaction does not exist in category") :=
  c2_zero_subcats_same_error trFoodNoSubs txFoodX catFoodNoSubs "x" rfl rfl rfl

/-- C6: the row conversion turns an empty sub-category, tag or note column
into the absent value and a non-empty one into the present string, so a
present-but-empty optional field never reaches a parsed transaction. -/
theorem c6_empty_optional_absent (csv : TransactionCsv) (t : Transaction)
    (h : tryFromCsv csv = .ok t) :
    (t.subcategory_name = if csv.subcategory = "" then none else some csv.subcategory)
  ∧ (t.tag = if csv.tag = "" then none else some csv.tag)
  ∧ (t.note = if csv.note = "" then none else some csv.note)
  ∧ t.subcategory_name ≠ some "" ∧ t.tag ≠ some "" ∧ t.note ≠ some "" := by
  unfold tryFromCsv at h
  cases hd : parseDate csv.date with
  | error e => rw [hd] at h; exact absurd h (by simp)
  | ok d =>
    rw [hd] at h
    cases hai : parse_amount csv.amount_in with
    | error e => rw [hai] at h; exact absurd h (by simp)
    | ok vin =>
      rw [hai] at h
      cases hao : parse_amount csv.amount_out with
      | error e => rw [hao] at h; exact absurd h (by simp)
      | ok vout =>
        rw [hao] at h
        obtain rfl : _ = t := by simpa using h
        refine ⟨?_, ?_, ?_, ?_, ?_, ?_⟩ <;>
          simp only [string_to_option] <;> split <;> simp_all

/-- C6 witness: a concrete row with an empty sub-category and note column and
a non-empty tag column. -/
theorem c6_witness :
    ∃ t, tryFromCsv ⟨"01.01.2023", "", "5.00", "Food", "", "Tag", ""⟩ = .ok t ∧
      t.subcategory_name = none ∧ t.tag = some "Tag" ∧ t.note = none := by
  have h := c6_empty_optional_absent ⟨"01.01.2023", "", "5.00", "Food", "", "Tag", ""⟩ _ rfl
  refine ⟨_, rfl, ?_, ?_, ?_⟩
  · simpa using h.1
  · simpa using h.2.1
  · simpa using h.2.2.1

/-- Whitespace characters (space, tab, line feed, carriage return). -/
def isWs (c : Char) : Bool :=
  c == Char.ofNat 32 || c == Char.ofNat 9 || c == Char.ofNat 10 || c == Char.ofNat 13

/-- Decimal parsing fails when the first character is neither a digit nor a
decimal point. -/
theorem parseDecimal_not_digit_head (c : Char) (cs : List Char)
    (hdig : isDigitB c = false) (hdot : c ≠ Char.ofNat 46) :
    parseDecimal (c :: cs) = none := by
  simp [parseDecimal, takeDigits, hdig, hdot]

/-- Splitting at the exponent marker keeps a head character that is not a
marker. -/
theorem splitExp_cons_ne (c : Char) (cs : List Char)
    (he : ¬(c = Char.ofNat 101 ∨ c = Char.ofNat 69)) :
    splitExp (c :: cs) = (c :: (splitExp cs).1, (splitExp cs).2) := by
  simp only [splitExp, if_neg he]

/-- Exponent-aware decimal parsing fails when the first character is neither a
digit, a decimal point nor an exponent marker. -/
theorem parseDecE_bad_head (c : Char) (cs : List Char)
    (hdig : isDigitB c = false) (hdot : c ≠ Char.ofNat 46)
    (he : ¬(c = Char.ofNat 101 ∨ c = Char.ofNat 69)) :
    parseDecE (c :: cs) = none := by
  unfold parseDecE
  rw [splitExp_cons_ne c cs he]
  cases hsnd : (splitExp cs).2 with
  | none =>
    exact parseDecimal_not_digit_head c _ hdig hdot
  | some ex =>
    show (match parseDecimal (c :: (splitExp cs).1), parseExpPart ex with
      | some m, some e => some (m * (10 : ℚ) ^ e)
      | _, _ => none) = none
    rw [parseDecimal_not_digit_head c _ hdig hdot]

/-- Float parsing fails when the first character fits neither the special
forms nor a decimal literal. -/
theorem parseF32Core_bad_head (c : Char) (cs : List Char) (neg : Bool)
    (hlowi : lowerChar c ≠ Char.ofNat 105) (hlown : lowerChar c ≠ Char.ofNat 110)
    (hdig : isDigitB c = false) (hdot : c ≠ Char.ofNat 46)
    (he : ¬(c = Char.ofNat 101 ∨ c = Char.ofNat 69)) :
    parseF32Core (c :: cs) neg = none := by
  unfold parseF32Core
  have h1 : ¬((c :: cs).map lowerChar = ("inf").data ∨
      (c :: cs).map lowerChar = ("infinity").data) := by
    rintro (h | h) <;> (simp only [List.map_cons] at h; injection h with h1 _) <;>
      exact hlowi h1
  rw [if_neg h1]
  have h2 : ¬((c :: cs).map lowerChar = ("nan").data) := by
    intro h
    simp only [List.map_cons] at h
    injection h with h1 _
    exact hlown h1
  rw [if_neg h2]
  rw [parseDecE_bad_head c cs hdig hdot he]
  rfl

/-- Signed float parsing fails when the first character is not a sign and fits
neither the special forms nor a decimal literal. -/
theorem parseF32_bad_head (c : Char) (cs : List Char)
    (h45 : c ≠ Char.ofNat 45) (h43 : c ≠ Char.ofNat 43)
    (hlowi : lowerChar c ≠ Char.ofNat 105) (hlown : lowerChar c ≠ Char.ofNat 110)
    (hdig : isDigitB c = false) (hdot : c ≠ Char.ofNat 46)
    (he : ¬(c = Char.ofNat 101 ∨ c = Char.ofNat 69)) :
    parseF32 (c :: cs) = none := by
  simp only [parseF32]
  rw [if_neg h45, if_neg h43]
  exact parseF32Core_bad_head c cs false hlowi hlown hdig hdot he

/-- C7 counterexample: a whitespace-only amount string is an error, not the
amount zero. -/
theorem c7_counterexample : ∃ e, parse_amount (" ") = .error e := ⟨_, rfl⟩

set_option maxRecDepth 8000 in
/-- C7 (amended): the empty amount string parses to zero without error; a
separator-bearing decimal such as 1'234.50 parses to its exact value; and any
non-empty input that is malformed — including alphabetic text and
whitespace-only strings — is an error. -/
theorem c7_parse_amount_amended :
    parse_amount "" = .ok (F32.finite 0)
  ∧ parse_amount ("1'234.50") = .ok (F32.finite (2469 / 2))
  ∧ (∃ e, parse_amount ("abc") = .error e)
  ∧ ∀ s : String, s ≠ "" → (∀ c ∈ s.data, isWs c = true) →
      ∃ e, parse_amount s = .error e := by
  refine ⟨rfl, ?_, ⟨_, rfl⟩, ?_⟩
  · with_unfolding_all rfl
  · intro s hne hws
    cases s with
    | mk l =>
      have hl : l ≠ [] := by
        intro h0
        exact hne (by simp [h0])
      unfold parse_amount
      rw [if_neg hne]
      have hfilter : l.filter (fun c => c ≠ apos) = l := by
        rw [List.filter_eq_self]
        intro c hc
        have := hws c hc
        simp only [isWs, Bool.or_eq_true, beq_iff_eq] at this
        rcases this with ((h | h) | h) | h <;> subst h <;> decide
      simp only [String.data] at hfilter ⊢
      rw [hfilter]
      cases l with
      | nil => exact absurd rfl hl
      | cons c cs =>
        have hc := hws c (by simp)
        simp only [isWs, Bool.or_eq_true, beq_iff_eq] at hc
        have hnone : parseF32 (c :: cs) = none := by
          rcases hc with ((h | h) | h) | h <;> subst h <;>
            exact parseF32_bad_head _ cs (by decide) (by decide) (by decide)
              (by decide) (by decide) (by decide) (by decide)
        rw [hnone]
        exact ⟨_, rfl⟩

/-- C7 witness: the amended statement's universal part at the concrete
whitespace string of one tab. -/
theorem c7_witness : ∃ e, parse_amount ("\t") = .error e :=
  c7_parse_amount_amended.2.2.2 ("\t") (by decide) (by decide)

/-- C4: adding a category twice under any two casings of the same name leaves
exactly one category with the lowercase-normalized name, the second call being
a `false`-returning no-op; `add_category` is total and never errors. -/
theorem c4_add_category_idempotent (st : ExpenseTracker) (a b : String)
    (d1 d2 : Option Date) (t1 t2 : Date)
    (hab : strLower a = strLower b) (hinv : catNamesNodup st) :
    (st.add_category a d1 t1).2.add_category b d2 t2 =
      (false, (st.add_category a d1 t1).2)
  ∧ ((st.add_category a d1 t1).2.valid_categories.map (fun c => c.name)).count
      (strLower a) = 1 := by
  cases h : st.get_category a with
  | some c =>
    have hm : c ∈ st.valid_categories := List.mem_of_find?_eq_some h
    have hname : c.name = strLower a := by simpa using List.find?_some h
    have hb : st.get_category b = some c := by
      unfold ExpenseTracker.get_category at h ⊢
      simp only [← hab]
      exact h
    have hfirst : st.add_category a d1 t1 = (false, st) := by
      simp [ExpenseTracker.add_category, h]
    rw [hfirst]
    constructor
    · simp [ExpenseTracker.add_category, hb]
    · have hle := List.nodup_iff_count_le_one.mp hinv (strLower a)
      have hpos : 0 < (st.valid_categories.map (fun c => c.name)).count (strLower a) := by
        rw [List.count_pos_iff]
        exact List.mem_map.mpr ⟨c, hm, hname⟩
      have hst : (st.valid_categories.map (fun c => c.name)).count (strLower a) = 1 := by
        omega
      simpa using hst
  | none =>
    have hnotmem : (⟨strLower a, [], d1.getD t1⟩ : Category) ∉ st.valid_categories := by
      intro hmem
      have := List.find?_eq_none.mp h _ hmem
      simp at this
    have hfirst : st.add_category a d1 t1 =
        (true, { st with valid_categories :=
                  st.valid_categories ++ [⟨strLower a, [], d1.getD t1⟩] }) := by
      simp [ExpenseTracker.add_category, h, listInsert, hnotmem]
    rw [hfirst]
    have hb2 : ExpenseTracker.get_category
        { st with valid_categories :=
            st.valid_categories ++ [⟨strLower a, [], d1.getD t1⟩] } b =
        some ⟨strLower a, [], d1.getD t1⟩ := by
      unfold ExpenseTracker.get_category at h ⊢
      simp only [← hab]
      rw [List.find?_append, h]
      simp
    constructor
    · simp [ExpenseTracker.add_category, hb2]
    · simp only [List.map_append, List.count_append]
      have h0 : (st.valid_categories.map (fun c => c.name)).count (strLower a) = 0 := by
        rw [List.count_eq_zero]
        intro hmem
        obtain ⟨c, hc, hcn⟩ := List.mem_map.mp hmem
        have := List.find?_eq_none.mp h _ hc
        simp [hcn] at this
      rw [h0]
      simp

/-- C4 witness: adding `Food` then `FOOD` to the empty store. -/
theorem c4_witness :
    (ExpenseTracker.new.add_category "Food" (some epochDate) epochDate).2.add_category
        "FOOD" (some epochDate) epochDate =
      (false, (ExpenseTracker.new.add_category "Food" (some epochDate) epochDate).2)
  ∧ (((ExpenseTracker.new.add_category "Food" (some epochDate) epochDate).2.valid_categories.map
        (fun c => c.name)).count (strLower "Food")) = 1 :=
  c4_add_category_idempotent ExpenseTracker.new "Food" "FOOD" (some epochDate)
    (some epochDate) epochDate epochDate (by decide) (by simp [catNamesNodup, ExpenseTracker.new])

/-- C5: `add_subcategory` errors exactly when the category is unknown or the
lowercase-normalized sub-category already exists under it, and otherwise
inserts the sub-category with its name normalized to lowercase. -/
theorem c5_add_subcategory_spec (st : ExpenseTracker) (cat sub : String)
    (d : Option Date) (td : Date) (hinv : catNamesNodup st) :
    ((∃ e, st.add_subcategory cat sub d td = .error e) ↔
      ((¬ ∃ c ∈ st.valid_categories, c.name = strLower cat) ∨
       (∃ c ∈ st.valid_categories, c.name = strLower cat ∧
         ∃ s ∈ c.subcategories, s.name = strLower sub)))
  ∧ ∀ st2, st.add_subcategory cat sub d td = .ok st2 →
      ∃ s, st2.get_subcategory sub cat = some s ∧ s.name = strLower sub := by
  have hinj := List.inj_on_of_nodup_map hinv
  cases hc : st.get_category cat with
  | none =>
    have hno : ∀ c ∈ st.valid_categories, c.name ≠ strLower cat := by
      intro c hcmem
      have := List.find?_eq_none.mp hc _ hcmem
      simpa using this
    have herr : st.add_subcategory cat sub d td =
        .error ("Sub-category cannot be added because its category is invalid") := by
      simp [ExpenseTracker.add_subcategory, hc]
    constructor
    · constructor
      · intro _
        left
        rintro ⟨c, hcm, hcn⟩
        exact hno c hcm hcn
      · intro _
        exact ⟨_, herr⟩
    · intro st2 h2
      rw [herr] at h2
      exact absurd h2 (by simp)
  | some c =>
    have hm : c ∈ st.valid_categories := List.mem_of_find?_eq_some hc
    have hname : c.name = strLower cat := by simpa using List.find?_some hc
    cases hs : st.get_subcategory sub cat with
    | some s0 =>
      have hs' : s0 ∈ c.subcategories ∧ s0.name = strLower sub := by
        unfold ExpenseTracker.get_subcategory at hs
        rw [hc] at hs
        exact ⟨List.mem_of_find?_eq_some hs, by simpa using List.find?_some hs⟩
      have herr : st.add_subcategory cat sub d td =
          .error ("The subcategory name already exists") := by
        simp [ExpenseTracker.add_subcategory, hc, hs]
      constructor
      · constructor
        · intro _
          right
          exact ⟨c, hm, hname, s0, hs'.1, hs'.2⟩
        · intro _
          exact ⟨_, herr⟩
      · intro st2 h2
        rw [herr] at h2
        exact absurd h2 (by simp)
    | none =>
      have hnosub : ∀ s ∈ c.subcategories, s.name ≠ strLower sub := by
        intro s hsm
        unfold ExpenseTracker.get_subcategory at hs
        rw [hc] at hs
        have := List.find?_eq_none.mp hs _ hsm
        simpa using this
      have hnsmem : (⟨strLower sub, d.getD td⟩ : SubCategory) ∉ c.subcategories :=
        fun hmem => hnosub _ hmem rfl
      have hnodupl : st.valid_categories.Nodup := List.Nodup.of_map _ hinv
      have hc2notin :
          ({ c with subcategories := c.subcategories ++ [⟨strLower sub, d.getD td⟩] } : Category) ∉
            st.valid_categories.erase c := by
        intro hmem
        have hsubm := List.erase_subset _ _ hmem
        have heq : ({ c with subcategories := c.subcategories ++ [⟨strLower sub, d.getD td⟩] } : Category) = c :=
          hinj hsubm hm rfl
        have hlen := congrArg (fun x => x.subcategories.length) heq
        simp at hlen
      have hok : st.add_subcategory cat sub d td = .ok
          { st with valid_categories :=
              st.valid_categories.erase c ++
                [{ c with subcategories := c.subcategories ++ [⟨strLower sub, d.getD td⟩] }] } := by
        simp only [ExpenseTracker.add_subcategory, hc, hs]
        simp [listInsert, hnsmem, hc2notin]
      constructor
      · constructor
        · rintro ⟨e, he⟩
          rw [hok] at he
          exact absurd he (by simp)
        · rintro (hL | hR)
          · exact absurd ⟨c, hm, hname⟩ hL
          · obtain ⟨c', hcm', hcn', s', hsm', hsn'⟩ := hR
            obtain rfl : c' = c := hinj hcm' hm (by rw [hcn', hname])
            exact absurd hsn' (hnosub s' hsm')
      · intro st2 h2
        rw [hok] at h2
        obtain rfl : _ = st2 := by simpa using h2
        have herase_none :
            (st.valid_categories.erase c).find? (fun x => x.name == strLower cat) = none := by
          rw [List.find?_eq_none]
          intro x hxm
          simp only [beq_iff_eq]
          intro hxn
          have hxmem : x ∈ st.valid_categories := List.erase_subset _ _ hxm
          obtain rfl : x = c := hinj hxmem hm (by rw [hxn, hname])
          exact ((List.Nodup.mem_erase_iff hnodupl).mp hxm).1 rfl
        have hfind : ExpenseTracker.get_category
            { st with valid_categories :=
                st.valid_categories.erase c ++
                  [{ c with subcategories := c.subcategories ++ [⟨strLower sub, d.getD td⟩] }] }
            cat =
            some { c with subcategories := c.subcategories ++ [⟨strLower sub, d.getD td⟩] } := by
          unfold ExpenseTracker.get_category
          simp only [List.find?_append, herase_none]
          simp [hname]
        refine ⟨⟨strLower sub, d.getD td⟩, ?_, rfl⟩
        unfold ExpenseTracker.get_subcategory
        rw [hfind]
        simp only [List.find?_append]
        have hfn : c.subcategories.find? (fun s => s.name == strLower sub) = none := by
          rw [List.find?_eq_none]
          intro x hx
          simpa using hnosub x hx
        rw [hfn]
        simp

/-- C5 witness: under the store `[food -> {groceries}]`, adding `Groceries`
again is a duplicate error, and adding `Restaurant` succeeds and is found
lowercased afterwards. -/
theorem c5_witness :
    (∃ e, trFood.add_subcategory "Food" "GROCERIES" none epochDate = .error e)
  ∧ ∀ st2, trFood.add_subcategory "Food" "Restaurant" none epochDate = .ok st2 →
      ∃ s, st2.get_subcategory "Restaurant" "Food" = some s ∧ s.name = strLower "Restaurant" := by
  constructor
  · exact (c5_add_subcategory_spec trFood "Food" "GROCERIES" none epochDate
      (by simp [catNamesNodup, trFood])).1.mpr
      (Or.inr ⟨catFood, by simp [trFood], by decide, ⟨"groceries", epochDate⟩, by decide, by decide⟩)
  · exact (c5_add_subcategory_spec trFood "Food" "Restaurant" none epochDate
      (by simp [catNamesNodup, trFood])).2

/-- Transaction whose amount is the float NaN, as produced by parsing the
literal nan. -/
def txNaN : Transaction := ⟨epochDate, F32.nan, "food", none, none, none⟩

/-- Tracker retaining `txNaN` under the taxonomy `[food]`. -/
def trNaN : ExpenseTracker := ⟨[catFoodNoSubs], [txNaN]⟩

/-- C8 counterexample: the float parser accepts the literal nan, a NaN-amount
transaction passes resolution and is retained, and the record written for it
has BOTH amount columns empty — `amount < 0.0` and `amount >= 0.0` are both
false on NaN — refuting the exactly-one-non-empty claim. -/
theorem c8_counterexample :
    (∃ t, tryFromCsv ⟨"01.01.2023", "", "nan", "food", "", "", ""⟩ = .ok t ∧
      t.amount = F32.nan)
  ∧ ExpenseTracker.add_transaction ⟨[catFoodNoSubs], []⟩ txNaN = .ok trNaN
  ∧ writeRecord txNaN ∈ trNaN.write_transactions
  ∧ (writeRecord txNaN).get? 1 = some "" ∧ (writeRecord txNaN).get? 2 = some "" := by
  refine ⟨⟨_, rfl, rfl⟩, rfl, ?_, rfl, rfl⟩
  simp [ExpenseTracker.write_transactions, trNaN]

/-- C8 (amended): for every retained transaction whose amount is a number,
the written record has exactly one non-empty value among the amount_out and
amount_in columns — amount_out carrying the negated amount at two decimals
when the finite amount is negative, amount_in carrying the amount at two
decimals when it is non-negative; a NaN amount (which the float parser can
produce from the literal nan) instead leaves BOTH columns empty. -/
theorem c8_amount_split (st : ExpenseTracker) (rec : List String)
    (h : rec ∈ st.write_transactions) :
    ∃ t ∈ st.transactions, rec = writeRecord t ∧
      ∃ a b, rec.get? 1 = some a ∧ rec.get? 2 = some b ∧
        (t.amount = F32.nan → a = "" ∧ b = "") ∧
        (t.amount ≠ F32.nan → ((a = "" ∧ b ≠ "") ∨ (a ≠ "" ∧ b = ""))) ∧
        (∀ v, t.amount = F32.finite v →
          (v < 0 → a = format2 (-v) ∧ b = "") ∧
          (0 ≤ v → a = "" ∧ b = format2 v)) := by
  obtain ⟨t, ht, rfl⟩ := List.mem_map.mp h
  refine ⟨t, ht, rfl, ?_⟩
  cases hamt : t.amount with
  | nan =>
    refine ⟨"", "", ?_, ?_, ?_, ?_, ?_⟩
    · simp [writeRecord, hamt, F32.lt]
    · simp [writeRecord, hamt, F32.le]
    · intro _
      exact ⟨rfl, rfl⟩
    · intro hne
      exact absurd rfl hne
    · intro v hv
      exact absurd hv (by simp)
  | inf neg =>
    cases neg with
    | true =>
      refine ⟨"inf", "", ?_, ?_, ?_, ?_, ?_⟩
      · simp [writeRecord, hamt, F32.lt, F32.neg, formatF32]
      · simp [writeRecord, hamt, F32.le]
      · intro h0
        exact absurd h0 (by simp)
      · intro _
        exact Or.inr ⟨by decide, rfl⟩
      · intro v hv
        exact absurd hv (by simp)
    | false =>
      refine ⟨"", "inf", ?_, ?_, ?_, ?_, ?_⟩
      · simp [writeRecord, hamt, F32.lt]
      · simp [writeRecord, hamt, F32.le, formatF32]
      · intro h0
        exact absurd h0 (by simp)
      · intro _
        exact Or.inl ⟨rfl, by decide⟩
      · intro v hv
        exact absurd hv (by simp)
  | finite v =>
    by_cases hneg : v < 0
    · refine ⟨format2 (-v), "", ?_, ?_, ?_, ?_, ?_⟩
      · simp [writeRecord, hamt, F32.lt, F32.neg, formatF32, hneg]
      · simp [writeRecord, hamt, F32.le, not_le.mpr hneg]
      · intro h0
        exact absurd h0 (by simp)
      · intro _
        exact Or.inr ⟨format2_ne_empty _, rfl⟩
      · intro v' hv'
        obtain rfl : v = v' := by simpa using hv'
        refine ⟨fun _ => ⟨rfl, rfl⟩, fun hge => absurd hge (not_le.mpr hneg)⟩
    · have hge : 0 ≤ v := not_lt.mp hneg
      refine ⟨"", format2 v, ?_, ?_, ?_, ?_, ?_⟩
      · simp [writeRecord, hamt, F32.lt, hneg]
      · simp [writeRecord, hamt, F32.le, formatF32, hge]
      · intro h0
        exact absurd h0 (by simp)
      · intro _
        exact Or.inl ⟨rfl, format2_ne_empty _⟩
      · intro v' hv'
        obtain rfl : v = v' := by simpa using hv'
        refine ⟨fun hlt => absurd hlt hneg, fun _ => ⟨rfl, rfl⟩⟩

/-- Transaction with the positive amount five under category `food`. -/
def txAmount5 : Transaction := ⟨epochDate, F32.finite 5, "food", none, none, none⟩

/-- Tracker retaining `txAmount5` under the taxonomy `[food]`. -/
def trC8 : ExpenseTracker := ⟨[catFoodNoSubs], [txAmount5]⟩

/-- C8 witness: the record of the amount-five transaction, with the amended
statement's conclusions instantiated. -/
theorem c8_witness :
    ∃ t ∈ trC8.transactions, writeRecord txAmount5 = writeRecord t ∧
      ∃ a b, (writeRecord txAmount5).get? 1 = some a ∧
        (writeRecord txAmount5).get? 2 = some b ∧
        (t.amount = F32.nan → a = "" ∧ b = "") ∧
        (t.amount ≠ F32.nan → ((a = "" ∧ b ≠ "") ∨ (a ≠ "" ∧ b = ""))) ∧
        (∀ v, t.amount = F32.finite v →
          (v < 0 → a = format2 (-v) ∧ b = "") ∧
          (0 ≤ v → a = "" ∧ b = format2 v)) :=
  c8_amount_split trC8 (writeRecord txAmount5)
    (by simp [ExpenseTracker.write_transactions, trC8])

/-- Batch loading succeeds exactly when every record passes structural
parsing, whatever the resolver decides row by row. -/
theorem load_rows_ok_iff (flag : Bool) :
    ∀ (rows : List (List String)) (st : ExpenseTracker) (n : Nat),
      (∃ p, st.load_transactions_from_rows flag n rows = .ok p) ↔
        ∀ r ∈ rows, ∃ t, parseRow r = .ok t := by
  intro rows
  induction rows with
  | nil =>
    intro st n
    simp [ExpenseTracker.load_transactions_from_rows]
  | cons r rest ih =>
    intro st n
    cases hdes : deserializeRecord r with
    | error e =>
      constructor
      · rintro ⟨p, hp⟩
        simp only [ExpenseTracker.load_transactions_from_rows, hdes] at hp
        exact absurd hp (by simp)
      · intro hall
        obtain ⟨t, ht⟩ := hall r (by simp)
        simp [parseRow, hdes, Except.bind] at ht
    | ok csv =>
      cases htry : tryFromCsv csv with
      | error e =>
        constructor
        · rintro ⟨p, hp⟩
          simp only [ExpenseTracker.load_transactions_from_rows, hdes, htry] at hp
          exact absurd hp (by simp)
        · intro hall
          obtain ⟨t, ht⟩ := hall r (by simp)
          simp [parseRow, hdes, htry, Except.bind] at ht
      | ok t =>
        have hpr : parseRow r = .ok t := by simp [parseRow, hdes, htry, Except.bind]
        cases hadd : ExpenseTracker.add_transaction (if flag then st.generateFor t else st) t with
        | ok st2 =>
          have hstep : st.load_transactions_from_rows flag n (r :: rest) =
              st2.load_transactions_from_rows flag n rest := by
            simp only [ExpenseTracker.load_transactions_from_rows, hdes, htry]
            rw [hadd]
          rw [hstep, ih st2 n, List.forall_mem_cons]
          simp [hpr]
        | error e =>
          have hstep : st.load_transactions_from_rows flag n (r :: rest) =
              ExpenseTracker.load_transactions_from_rows
                (if flag then st.generateFor t else st) flag (n + 1) rest := by
            simp only [ExpenseTracker.load_transactions_from_rows, hdes, htry]
            rw [hadd]
          rw [hstep, ih _ (n + 1), List.forall_mem_cons]
          simp [hpr]

/-- C3: a structurally parsed record the resolver rejects never aborts the
load — it increments the ignored counter and processing continues with the
remaining records — while a record that fails structural parsing errors the
whole load; in particular the load returns success exactly when every record
parses structurally. -/
theorem c3_batch_policy (st : ExpenseTracker) (flag : Bool) (n : Nat)
    (rows : List (List String)) :
    ((∃ p, st.load_transactions_from_rows flag n rows = .ok p) ↔
      ∀ r ∈ rows, ∃ t, parseRow r = .ok t)
  ∧ (∀ r t rest, parseRow r = .ok t →
      (∃ e, ExpenseTracker.add_transaction (if flag then st.generateFor t else st) t = .error e) →
      st.load_transactions_from_rows flag n (r :: rest) =
        ExpenseTracker.load_transactions_from_rows
          (if flag then st.generateFor t else st) flag (n + 1) rest)
  ∧ (∀ r rest e, parseRow r = .error e →
      ∃ e2, st.load_transactions_from_rows flag n (r :: rest) = .error e2) := by
  refine ⟨load_rows_ok_iff flag rows st n, ?_, ?_⟩
  · rintro r t rest hpr ⟨e, hadd⟩
    cases hdes : deserializeRecord r with
    | error e' =>
      rw [parseRow, hdes] at hpr
      simp only [Except.bind] at hpr
      exact absurd hpr (by simp)
    | ok csv =>
      rw [parseRow, hdes] at hpr
      simp only [Except.bind] at hpr
      simp only [ExpenseTracker.load_transactions_from_rows, hdes, hpr]
      rw [hadd]
  · intro r rest e hpr
    cases hdes : deserializeRecord r with
    | error e' =>
      have hres : st.load_transactions_from_rows flag n (r :: rest) =
          .error ("Failed to deserialize the CSV transaction: " ++ e') := by
        simp only [ExpenseTracker.load_transactions_from_rows, hdes]
      exact ⟨_, hres⟩
    | ok csv =>
      rw [parseRow, hdes] at hpr
      simp only [Except.bind] at hpr
      have hres : st.load_transactions_from_rows flag n (r :: rest) =
          .error ("Failed to convert CSV transaction to transaction: " ++ e) := by
        simp only [ExpenseTracker.load_transactions_from_rows, hdes, hpr]
      exact ⟨_, hres⟩

/-- C3 witness: with an empty store and taxonomy auto-creation off, a valid
row rejected by the resolver steps to the remaining rows with the counter
incremented, and a row with a malformed date errors the load. -/
theorem c3_witness :
    (∃ t, parseRow (["01.01.2023", "", "5.00", "food", "", "", ""]) = .ok t ∧
      ExpenseTracker.new.load_transactions_from_rows false 0
          [["01.01.2023", "", "5.00", "food", "", "", ""]] =
        ExpenseTracker.load_transactions_from_rows
          (if false then ExpenseTracker.new.generateFor t else ExpenseTracker.new) false 1 [])
  ∧ ∃ e2, ExpenseTracker.new.load_transactions_from_rows false 0
      [["xx.01.2023", "", "5.00", "food", "", "", ""]] = .error e2 := by
  constructor
  · refine ⟨_, rfl, ?_⟩
    exact (c3_batch_policy ExpenseTracker.new false 0 []).2.1 _ _ [] rfl ⟨_, rfl⟩
  · exact (c3_batch_policy ExpenseTracker.new false 0 []).2.2 _ [] _ rfl

/-- Tracker with an empty taxonomy retaining the same `food`/`x` transaction
twice. -/
def trC10 : ExpenseTracker := ⟨[], [txFoodX, txFoodX]⟩

/-- C10: rebuilding the taxonomy from the transactions is NOT panic-free — on
a collection holding two transactions with the same category and sub-category
names the inner `add_subcategory` call returns a duplicate error, so its
`.unwrap()` panics, although each such transaction is individually valid. -/
theorem c10_load_info_unwrap_fails :
    ExpenseTracker.is_transaction_valid ⟨[⟨"food", [⟨"x", epochDate⟩], epochDate⟩], []⟩ txFoodX = .ok ()
  ∧ trC10.transactions = [txFoodX, txFoodX]
  ∧ ∃ e, trC10.load_info_from_transactions = .error e :=
  ⟨rfl, rfl, _, rfl⟩

/-- Executable canonicity of a date column: it parses under `%d.%m.%Y` and
formatting the parsed date reproduces the string. -/
def canonicalDateStr (ds : String) : Bool :=
  match parseDate ds with
  | .ok d => formatDate d == ds
  | .error _ => false

/-- Executable output-formatting convention for the amount columns of a
record, judged against the parsed transaction's own binary32 amount: exactly
one column is non-empty, amount_in rendering a non-negative finite amount at
two decimals, or amount_out rendering the negation of a negative finite
amount at two decimals.  Amounts the binary32 pipeline reformats (values the
parse rounds to a different two-decimal rendering, NaN, infinities) do not
satisfy the convention. -/
def amountsConvention (ao ai : String) (amt : F32) : Bool :=
  (ao == "" &&
    (match amt with
     | .finite v => decide (0 ≤ v) && (format2 v == ai)
     | _ => false)) ||
  (ai == "" &&
    (match amt with
     | .finite v => decide (v < 0) && (format2 (-v) == ao)
     | _ => false))

/-- A record follows the writer's own formatting conventions: it parses, its
date column is canonical and its amount columns render its parsed amount. -/
def rowCanonical (r : List String) : Bool :=
  match r with
  | [ds, ao, ai, _, _, _, _] =>
    match parseRow r with
    | .ok t => canonicalDateStr ds && amountsConvention ao ai t.amount
    | .error _ => false
  | _ => false

/-- Every record of the list is accepted at its position of the load (with
taxonomy auto-creation), against the taxonomy as built by the earlier
records. -/
def acceptedAllB (st : ExpenseTracker) : List (List String) → Bool
  | [] => true
  | r :: rest =>
    match deserializeRecord r with
    | .error _ => false
    | .ok csv =>
      match tryFromCsv csv with
      | .error _ => false
      | .ok t =>
        match ExpenseTracker.add_transaction (st.generateFor t) t with
        | .error _ => false
        | .ok st2 => acceptedAllB st2 rest

/-- Transactions written by the tracker resulting from a load, `none` when
the load itself errors. -/
def loadOutput (rows : List (List String)) : Option (List (List String)) :=
  match ExpenseTracker.new.load_transactions_from_rows true 0 rows with
  | .ok p => some p.1.write_transactions
  | .error _ => none

/-- Ignored-row counter resulting from a load, `none` when the load itself
errors. -/
def loadIgnored (rows : List (List String)) : Option Nat :=
  match ExpenseTracker.new.load_transactions_from_rows true 0 rows with
  | .ok p => some p.2
  | .error _ => none

/-- Adding a category never touches the transaction collection. -/
theorem add_category_transactions (st : ExpenseTracker) (n : String)
    (d : Option Date) (td : Date) :
    (st.add_category n d td).2.transactions = st.transactions := by
  unfold ExpenseTracker.add_category
  cases h : st.get_category n <;> simp [listInsert]

/-- Adding a sub-category never touches the transaction collection. -/
theorem add_subcategory_transactions (st : ExpenseTracker) (c s : String)
    (d : Option Date) (td : Date) (st2 : ExpenseTracker)
    (h : st.add_subcategory c s d td = .ok st2) :
    st2.transactions = st.transactions := by
  unfold ExpenseTracker.add_subcategory at h
  cases h1 : st.get_category c with
  | none =>
    rw [h1] at h
    exact absurd h (by simp)
  | some cat =>
    rw [h1] at h
    cases h2 : st.get_subcategory s c with
    | some s0 =>
      rw [h2] at h
      exact absurd h (by simp)
    | none =>
      rw [h2] at h
      obtain rfl : _ = st2 := by simpa using h
      rfl

/-- The taxonomy auto-creation step never touches the transaction
collection. -/
theorem generateFor_transactions (st : ExpenseTracker) (t : Transaction) :
    (st.generateFor t).transactions = st.transactions := by
  cases hs : t.subcategory_name with
  | none =>
    simp only [ExpenseTracker.generateFor, hs]
    exact add_category_transactions st t.category_name (some t.date) t.date
  | some s =>
    simp only [ExpenseTracker.generateFor, hs]
    cases hadd : (st.add_category t.category_name (some t.date) t.date).2.add_subcategory
        t.category_name s (some t.date) t.date with
    | ok st2 =>
      exact (add_subcategory_transactions _ _ _ _ _ _ hadd).trans
        (add_category_transactions st t.category_name (some t.date) t.date)
    | error e =>
      exact add_category_transactions st t.category_name (some t.date) t.date

/-- A successful `add_transaction` appends the transaction and changes
nothing else. -/
theorem add_transaction_ok (st : ExpenseTracker) (t : Transaction)
    (st2 : ExpenseTracker) (h : st.add_transaction t = .ok st2) :
    st2 = { st with transactions := st.transactions ++ [t] } := by
  unfold ExpenseTracker.add_transaction at h
  cases hv : st.is_transaction_valid t with
  | error e =>
    rw [hv] at h
    exact absurd h (by simp)
  | ok u =>
    rw [hv] at h
    have h2 : ({ st with transactions := st.transactions ++ [t] } : ExpenseTracker) = st2 := by
      simpa using h
    exact h2.symm

/-- Inverts the structural deserialization: a record that deserializes is the
seven-column list of the resulting row's fields. -/
theorem deserializeRecord_ok_shape (r : List String) (csv : TransactionCsv)
    (h : deserializeRecord r = .ok csv) :
    r = [csv.date, csv.amount_out, csv.amount_in, csv.category,
         csv.subcategory, csv.tag, csv.note] := by
  cases r with
  | nil => simp [deserializeRecord] at h
  | cons a0 r0 =>
  cases r0 with
  | nil => simp [deserializeRecord] at h
  | cons a1 r1 =>
  cases r1 with
  | nil => simp [deserializeRecord] at h
  | cons a2 r2 =>
  cases r2 with
  | nil => simp [deserializeRecord] at h
  | cons a3 r3 =>
  cases r3 with
  | nil => simp [deserializeRecord] at h
  | cons a4 r4 =>
  cases r4 with
  | nil => simp [deserializeRecord] at h
  | cons a5 r5 =>
  cases r5 with
  | nil => simp [deserializeRecord] at h
  | cons a6 r6 =>
  cases r6 with
  | cons a7 r7 => simp [deserializeRecord] at h
  | nil =>
    unfold deserializeRecord at h
    obtain rfl : _ = csv := by simpa using h
    rfl

/-- Key single-record round trip: a record that follows the writer's
formatting conventions and parses into a transaction is reproduced exactly by
writing that transaction back out. -/
theorem writeRecord_of_row (r : List String) (csv : TransactionCsv)
    (t : Transaction) (hdes : deserializeRecord r = .ok csv)
    (htry : tryFromCsv csv = .ok t) (hcan : rowCanonical r = true) :
    writeRecord t = r := by
  obtain rfl := deserializeRecord_ok_shape r csv hdes
  have hpr : parseRow [csv.date, csv.amount_out, csv.amount_in, csv.category,
      csv.subcategory, csv.tag, csv.note] = .ok t := by
    simp [parseRow, hdes, Except.bind, htry]
  simp only [rowCanonical, hpr, Bool.and_eq_true] at hcan
  obtain ⟨hcdate, hcamt⟩ := hcan
  unfold tryFromCsv at htry
  cases hpd : parseDate csv.date with
  | error e =>
    rw [hpd] at htry
    exact absurd htry (by simp)
  | ok dd =>
    rw [hpd] at htry
    cases hai : parse_amount csv.amount_in with
    | error e =>
      rw [hai] at htry
      exact absurd htry (by simp)
    | ok vin =>
      rw [hai] at htry
      cases hao : parse_amount csv.amount_out with
      | error e =>
        rw [hao] at htry
        exact absurd htry (by simp)
      | ok vout =>
        rw [hao] at htry
        obtain rfl : _ = t := by simpa using htry
        simp only [canonicalDateStr, hpd, beq_iff_eq] at hcdate
        simp only [amountsConvention, Bool.or_eq_true, Bool.and_eq_true,
          beq_iff_eq] at hcamt
        rcases hcamt with ⟨hao0, hconv⟩ | ⟨hai0, hconv⟩
        · cases hsub : F32.sub vin vout with
          | nan =>
            rw [hsub] at hconv
            simp at hconv
          | inf b =>
            rw [hsub] at hconv
            simp at hconv
          | finite v =>
            rw [hsub] at hconv
            simp only [decide_eq_true_eq, Bool.and_eq_true, beq_iff_eq] at hconv
            obtain ⟨hge, hfmt⟩ := hconv
            simp [writeRecord, hsub, F32.lt, F32.le, formatF32, hcdate,
              not_lt.mpr hge, hge, hfmt, hao0, string_to_option_getD]
        · cases hsub : F32.sub vin vout with
          | nan =>
            rw [hsub] at hconv
            simp at hconv
          | inf b =>
            rw [hsub] at hconv
            simp at hconv
          | finite v =>
            rw [hsub] at hconv
            simp only [decide_eq_true_eq, Bool.and_eq_true, beq_iff_eq] at hconv
            obtain ⟨hneg, hfmt⟩ := hconv
            simp [writeRecord, hsub, F32.lt, F32.le, F32.neg, formatF32, hcdate,
              hneg, not_le.mpr hneg, hfmt, hai0, string_to_option_getD]

/-- Batch round trip, generalized over the starting store and counter: when
every record is accepted at its position and follows the formatting
conventions, the load succeeds without ignoring any row and appends
transactions whose written records are exactly the input records. -/
theorem load_roundtrip_aux (rows : List (List String)) :
    ∀ (st : ExpenseTracker) (n : Nat),
      acceptedAllB st rows = true → rows.all rowCanonical = true →
      ∃ st', st.load_transactions_from_rows true n rows = .ok (st', n) ∧
        ∃ ts, st'.transactions = st.transactions ++ ts ∧
          ts.map writeRecord = rows := by
  induction rows with
  | nil =>
    intro st n _ _
    exact ⟨st, rfl, [], by simp, rfl⟩
  | cons r rest ih =>
    intro st n hacc hcanl
    rw [List.all_cons, Bool.and_eq_true] at hcanl
    obtain ⟨hcan1, hcanrest⟩ := hcanl
    cases hdes : deserializeRecord r with
    | error e =>
      simp only [acceptedAllB, hdes] at hacc
      exact absurd hacc (by simp)
    | ok csv =>
      cases htry : tryFromCsv csv with
      | error e =>
        simp only [acceptedAllB, hdes, htry] at hacc
        exact absurd hacc (by simp)
      | ok t =>
        cases hadd : ExpenseTracker.add_transaction (st.generateFor t) t with
        | error e =>
          simp only [acceptedAllB, hdes, htry, hadd] at hacc
          exact absurd hacc (by simp)
        | ok st2 =>
          simp only [acceptedAllB, hdes, htry, hadd] at hacc
          obtain ⟨st', hload, ts, htrans, hmap⟩ := ih st2 n hacc hcanrest
          refine ⟨st', ?_, t :: ts, ?_, ?_⟩
          · simp only [ExpenseTracker.load_transactions_from_rows, hdes, htry, if_true]
            rw [hadd]
            exact hload
          · rw [htrans, add_transaction_ok _ _ _ hadd]
            simp [generateFor_transactions]
          · simp only [List.map_cons, hmap]
            rw [writeRecord_of_row r csv t hdes htry hcan1]

/-- C9 (amended): loading a record list with taxonomy auto-creation and
writing the retained transactions back reproduces the input exactly, provided
every record follows the output formatting conventions — a canonical date and
amount columns that render the record's own parsed binary32 amount, which
excludes amounts the float pipeline rewrites, such as 131072.01 whose nearest
binary32 value reformats to 131072.02 — and every record is accepted at its
position in the load, i.e. is valid against the taxonomy as it stands when
that record is processed, after that record's own category and sub-category
are auto-created.  (Self-consistency of each record in isolation is not
enough; see the counterexample.) -/
theorem c9_roundtrip_amended (rows : List (List String))
    (hacc : acceptedAllB ExpenseTracker.new rows = true)
    (hcan : rows.all rowCanonical = true) :
    ∃ st', ExpenseTracker.new.load_transactions_from_rows true 0 rows = .ok (st', 0) ∧
      st'.write_transactions = rows := by
  obtain ⟨st', hload, ts, htrans, hmap⟩ :=
    load_roundtrip_aux rows ExpenseTracker.new 0 hacc hcan
  refine ⟨st', hload, ?_⟩
  unfold ExpenseTracker.write_transactions
  rw [htrans]
  simpa [ExpenseTracker.new] using hmap

/-- First counterexample record: `food` with sub-category `x`. -/
def c9row1 : List String := ["01.01.2023", "", "5.00", "food", "x", "", ""]

/-- Second counterexample record: `food` with no sub-category. -/
def c9row2 : List String := ["02.01.2023", "", "5.00", "food", "", "", ""]

set_option maxRecDepth 8000 in
/-- C9 counterexample: both records are self-consistent in isolation (each
loads alone with zero ignored rows) and follow the formatting conventions,
yet loading the two-record file drops the second record — the sub-category
auto-created by the first record makes the resolver reject the second — so
the written output does not reproduce the input. -/
theorem c9_counterexample :
    loadIgnored [c9row1] = some 0
  ∧ loadIgnored [c9row2] = some 0
  ∧ rowCanonical c9row1 = true
  ∧ rowCanonical c9row2 = true
  ∧ loadIgnored [c9row1, c9row2] = some 1
  ∧ loadOutput [c9row1, c9row2] ≠ some [c9row1, c9row2] := by
  refine ⟨?_, ?_, ?_, ?_, ?_, ?_⟩ <;> with_unfolding_all decide

set_option maxRecDepth 8000 in
/-- C9 witness: the amended round trip at the concrete one-record file. -/
theorem c9_witness :
    ∃ st', ExpenseTracker.new.load_transactions_from_rows true 0 [c9row1] = .ok (st', 0) ∧
      st'.write_transactions = [c9row1] :=
  c9_roundtrip_amended [c9row1] (by with_unfolding_all decide)
    (by with_unfolding_all decide)
